import Mathlib

/-!
# Verification of the `follow` overlay algorithm (Boost.Geometry)

Shallow embedding of `src/boost/geometry/algorithms/detail/overlay/follow.hpp`:
the state machine that follows a linestring through its intersection turns with
a polygon and outputs the pieces of the linestring that lie inside the polygon.

The embedding is generic in the vertex type `Point`.  The polygon enters the
algorithm only through the `within` containment predicate (always consulted at
the first vertex of the linestring), so it is embedded as that predicate,
`Point → Bool`.  External collaborators that the header consumes but whose code
is outside `src/` (`segment_identifier` comparisons, `within`,
`append_no_duplicates`, `copy_segments`) are modelled from the specification,
as marked in their doc comments.
-/

namespace Follow

/-- `segment_identifier`: source, multi, ring and segment index.
Turns carry it in `operations[0].seg_id`; `follow::apply` initialises its
running anchor to `(0, -1, -1, -1)`. -/
structure SegmentId where
  source_index : Int
  multi_index : Int
  ring_index : Int
  segment_index : Int
deriving DecidableEq, Repr

/-- Modelled from the spec: "SegmentId: a tuple (source, multi_index,
ring_index, segment_index) ordered lexicographically."  (The comparison
operators of `segment_identifier` are declared outside `src/`.) -/
def SegmentId.lt (a b : SegmentId) : Bool :=
  if a.source_index ≠ b.source_index then a.source_index < b.source_index
  else if a.multi_index ≠ b.multi_index then a.multi_index < b.multi_index
  else if a.ring_index ≠ b.ring_index then a.ring_index < b.ring_index
  else a.segment_index < b.segment_index

/-- `method_type` of a turn: how the two geometries meet locally. -/
inductive MethodType where
  | method_none
  | method_crosses
  | method_touch
  | method_touch_interior
  | method_collinear
  | method_equal
deriving DecidableEq, Repr

/-- `operation_type`: semantic role of a turn operation. -/
inductive OperationType where
  | operation_none
  | operation_union
  | operation_intersection
  | operation_blocked
  | operation_continue
deriving DecidableEq, Repr

/-- The L-side operation record of a turn: `operation`, `seg_id` and the
enrichment `enriched.distance` (a scalar position along the segment, embedded
as `Int`; only its ordering matters to `follow`). -/
structure TurnOperation where
  operation : OperationType
  seg_id : SegmentId
  distance : Int
deriving DecidableEq, Repr

/-- A turn: intersection point, method, and the L-side operation record.
`follow::apply` reads only `operations[0]` (through `boost::begin`), which is
embedded as the field `operations0`. -/
structure Turn (Point : Type) where
  point : Point
  method : MethodType
  operations0 : TurnOperation
deriving DecidableEq, Repr

variable {Point : Type} [DecidableEq Point] [Inhabited Point]

/-- `follow::sort_on_segment::operator()`: compare two turns by
`operations[0].seg_id`, breaking seg-id equality by `enriched.distance`. -/
def sort_on_segment (left right : Turn Point) : Bool :=
  let sl := left.operations0.seg_id
  let sr := right.operations0.seg_id
  if sl = sr then left.operations0.distance < right.operations0.distance
  else SegmentId.lt sl sr

/-- Modelled from the spec: "`within(point, polygon) → bool` (strict interior;
boundary is not inside)"; the polygon is embedded as its containment
predicate. -/
def within (pt : Point) (polygon : Point → Bool) : Bool :=
  polygon pt

/-- `follow::is_entering`: true for the entering-like operations
(`blocked` behaves like `continue` for polyline/polygon). -/
def is_entering (_turn : Turn Point) (op : TurnOperation) : Bool :=
  op.operation = OperationType.operation_intersection
    || op.operation = OperationType.operation_continue
    || op.operation = OperationType.operation_blocked

/-- `follow::is_leaving`. -/
def is_leaving (turn : Turn Point) (op : TurnOperation)
    (entered first : Bool) (linestring : List Point) (polygon : Point → Bool) : Bool :=
  if op.operation = OperationType.operation_union then
    entered
      || turn.method = MethodType.method_crosses
      || (first && within (linestring.headI) polygon)
  else false

/-- `follow::is_staying_inside`. -/
def is_staying_inside (turn : Turn Point) (op : TurnOperation)
    (entered first : Bool) (linestring : List Point) (polygon : Point → Bool) : Bool :=
  if turn.method = MethodType.method_crosses then false
  else if is_entering turn op then
    entered || (first && within (linestring.headI) polygon)
  else false

/-- `follow::was_entered`: the very first turn with method collinear or equal
pre-marks the scan as having entered. -/
def was_entered (turn : Turn Point) (first : Bool) : Bool :=
  first && (turn.method = MethodType.method_collinear
    || turn.method = MethodType.method_equal)

/-- Modelled from the spec: "`append_no_duplicates(piece, point)` (appends
unless equal to last)". -/
def append_no_duplicates (piece : List Point) (pt : Point) : List Point :=
  match piece.getLast? with
  | some lastv => if lastv = pt then piece else piece ++ [pt]
  | none => [pt]

/-- Modelled from the spec: "`copy_segments(L, from_seg_id, to_segment_index,
piece)` appends to `piece` the vertices of L that lie strictly after the
`from_seg_id` anchor up to and including vertex index `to_segment_index`",
duplicate-suppressed, forward direction. -/
def copy_segments (ls : List Point) (seg : SegmentId) (to_index : Int)
    (piece : List Point) : List Point :=
  let from_index : Int := seg.segment_index + 1
  let verts : List Point :=
    if from_index ≤ to_index then
      (ls.drop from_index.toNat).take (to_index + 1 - from_index).toNat
    else []
  verts.foldl append_no_duplicates piece

/-- The mutable locals of `follow::apply`'s scan loop, plus the output
accumulated through the output iterator. -/
structure FollowState (Point : Type) where
  current_piece : List Point
  current_segment_id : SegmentId
  entered : Bool
  first : Bool
  out : List (List Point)
deriving DecidableEq, Repr

/-- One iteration of the scan loop of `follow::apply` on turn `t`. -/
def follow_step (ls : List Point) (polygon : Point → Bool)
    (st : FollowState Point) (t : Turn Point) : FollowState Point :=
  let op := t.operations0
  let entered := if was_entered t st.first then true else st.entered
  if is_staying_inside t op entered st.first ls polygon then
    { st with entered := true, first := false }
  else if is_entering t op then
    { st with
      entered := true
      current_piece := append_no_duplicates st.current_piece t.point
      current_segment_id := op.seg_id
      first := false }
  else if is_leaving t op entered st.first ls polygon then
    let piece := append_no_duplicates
        (copy_segments ls st.current_segment_id op.seg_id.segment_index
          st.current_piece) t.point
    if piece = [] then
      { st with entered := false, first := false, current_piece := piece }
    else
      { st with
        entered := false
        first := false
        current_piece := []
        out := st.out ++ [piece] }
  else
    { st with entered := entered, first := false }

/-- The initial scan state of `follow::apply`. -/
def follow_init : FollowState Point :=
  { current_piece := []
    current_segment_id := ⟨0, -1, -1, -1⟩
    entered := false
    first := true
    out := [] }

/-- The scan loop of `follow::apply` over an (already sorted) turn list. -/
def follow_scan (ls : List Point) (polygon : Point → Bool)
    (turns : List (Turn Point)) : FollowState Point :=
  turns.foldl (follow_step ls polygon) follow_init

/-- The epilogue of `follow::apply`: tail copy when still entered, then the
final guarded emission. -/
def follow_tail (ls : List Point) (st : FollowState Point) : List (List Point) :=
  let piece :=
    if st.entered then
      copy_segments ls st.current_segment_id ((ls.length : Int) - 1) st.current_piece
    else st.current_piece
  if piece = [] then st.out else st.out ++ [piece]

/-- The `std::sort` call of `follow::apply` with comparator `sort_on_segment`,
realised by merge sort (a conforming implementation: a permutation that is
sorted for the induced weak order). -/
def follow_sort (turns : List (Turn Point)) : List (Turn Point) :=
  turns.mergeSort (fun a b => !(sort_on_segment b a))

/-- `follow::apply`: sort the turns, scan them, flush the tail.  The
`operation` parameter is accepted and unused, exactly as in the source. -/
def follow_apply (ls : List Point) (polygon : Point → Bool)
    (_operation : OperationType) (turns : List (Turn Point)) : List (List Point) :=
  follow_tail ls (follow_scan ls polygon (follow_sort turns))

/-! ### Concrete data used by witnesses and counterexamples -/

/-- A containment predicate that holds everywhere. -/
def exPolyTrue : Nat → Bool := fun _ => true

/-- A containment predicate that holds nowhere. -/
def exPolyFalse : Nat → Bool := fun _ => false

/-- A containment predicate that holds exactly at vertex `0`. -/
def exPolyZero : Nat → Bool := fun v => v == 0

/-- First turn with method collinear and an entering-like operation. -/
def exC3Turn : Turn Nat :=
  ⟨7, MethodType.method_collinear, ⟨OperationType.operation_intersection, ⟨0, 0, 0, 0⟩, 0⟩⟩

/-- A crossing union turn on segment 0 (the start-inside leave of scenario S2). -/
def exC4Turn : Turn Nat :=
  ⟨9, MethodType.method_crosses, ⟨OperationType.operation_union, ⟨0, 0, -1, 0⟩, 3⟩⟩

/-- A touching union turn, never entered, first vertex outside. -/
def exC4IgnTurn : Turn Nat :=
  ⟨9, MethodType.method_touch, ⟨OperationType.operation_union, ⟨0, 0, -1, 0⟩, 3⟩⟩

/-- A scan state that is still entered when the turns run out. -/
def exC7StateEntered : FollowState Nat := ⟨[], ⟨0, -1, -1, -1⟩, true, false, []⟩

/-- A scan state that ends outside with a pending non-empty piece. -/
def exC7StateOutside : FollowState Nat := ⟨[5], ⟨0, -1, -1, -1⟩, false, false, []⟩

/-- A crossing union turn used for the polygon-independence witness. -/
def exC8Turn : Turn Nat :=
  ⟨4, MethodType.method_crosses, ⟨OperationType.operation_union, ⟨0, 0, -1, 0⟩, 2⟩⟩

/-- A crossing union turn used for the non-empty-output witness. -/
def exC10Turn : Turn Nat :=
  ⟨8, MethodType.method_crosses, ⟨OperationType.operation_union, ⟨0, 0, -1, 0⟩, 3⟩⟩

/-- The initial state at vertex type `Nat`. -/
def exState : FollowState Nat := follow_init

/-! ### Order-theoretic facts about the sort comparator -/

/-- Unfolding of the lexicographic `segment_identifier` comparison. -/
theorem SegmentId.lt_iff {a b : SegmentId} : SegmentId.lt a b = true ↔
    (a.source_index < b.source_index ∨ (a.source_index = b.source_index ∧
      (a.multi_index < b.multi_index ∨ (a.multi_index = b.multi_index ∧
        (a.ring_index < b.ring_index ∨ (a.ring_index = b.ring_index ∧
          a.segment_index < b.segment_index)))))) := by
  cases a; cases b
  simp only [SegmentId.lt]
  split_ifs <;> simp_all <;> omega

/-- `segment_identifier` equality is componentwise equality. -/
theorem seg_eq_iff {a b : SegmentId} : a = b ↔
    (a.source_index = b.source_index ∧ a.multi_index = b.multi_index ∧
     a.ring_index = b.ring_index ∧ a.segment_index = b.segment_index) := by
  cases a; cases b
  simp [SegmentId.mk.injEq]

/-- The comparator is asymmetric: it is a strict weak order. -/
theorem sort_on_segment_asymm {a b : Turn Point}
    (h : sort_on_segment a b = true) : sort_on_segment b a = false := by
  simp only [sort_on_segment, ← Bool.not_eq_true] at *
  split_ifs at * <;> simp_all [SegmentId.lt_iff, seg_eq_iff] <;> omega

/-- The negated comparator (the weak order induced by the strict one) is
transitive. -/
theorem sort_on_segment_weak_trans {a b c : Turn Point}
    (h1 : sort_on_segment b a = false) (h2 : sort_on_segment c b = false) :
    sort_on_segment c a = false := by
  simp only [sort_on_segment, ← Bool.not_eq_true] at *
  split_ifs at * <;> simp_all [SegmentId.lt_iff, seg_eq_iff] <;> omega

/-- Two comparator-incomparable turns in one direction are either strictly
ordered the other way or tied on `(seg_id, distance)`. -/
theorem sort_on_segment_total_cases {a b : Turn Point}
    (h : sort_on_segment b a = false) :
    sort_on_segment a b = true ∨
      (a.operations0.seg_id = b.operations0.seg_id ∧
       a.operations0.distance = b.operations0.distance) := by
  simp only [sort_on_segment, ← Bool.not_eq_true] at *
  split_ifs at * <;> simp_all [SegmentId.lt_iff, seg_eq_iff] <;> omega

/-- Transitivity of the weak order, in the form `mergeSort` consumes. -/
theorem follow_le_trans (a b c : Turn Point)
    (h1 : (!(sort_on_segment b a)) = true) (h2 : (!(sort_on_segment c b)) = true) :
    (!(sort_on_segment c a)) = true := by
  simp only [Bool.not_eq_true'] at *
  exact sort_on_segment_weak_trans h1 h2

/-- Totality of the weak order, in the form `mergeSort` consumes. -/
theorem follow_le_total (a b : Turn Point) :
    ((!(sort_on_segment b a)) || (!(sort_on_segment a b))) = true := by
  by_cases h : sort_on_segment b a = true
  · simp [sort_on_segment_asymm h]
  · simp [Bool.not_eq_true] at h
    simp [h]

/-! ### Claims -/

/-- Claim C1, counterexample: with an empty turn list and the first vertex
inside the polygon, `follow::apply` does not return `[L]`; the `entered` flag
is never set, so the epilogue emits nothing. -/
theorem empty_turns_inside_counterexample :
    within (List.headI [1, 2, 3]) exPolyTrue = true
    ∧ follow_apply [1, 2, 3] exPolyTrue OperationType.operation_intersection
        ([] : List (Turn Nat)) ≠ [[1, 2, 3]] := by
  constructor
  · rfl
  · have hs : follow_sort ([] : List (Turn Nat)) = [] := by
      simp [follow_sort]
    simp only [follow_apply, hs]
    decide

/-- Claim C1, amended: calling `follow::apply` with an empty turn list
returns no output pieces at all, whether or not the first vertex of `L` is
inside `P` (emitting the whole linestring in the all-inside case is left to
the caller of `follow`). -/
theorem follow_apply_empty_turns (ls : List Point) (polygon : Point → Bool)
    (oper : OperationType) :
    follow_apply ls polygon oper ([] : List (Turn Point)) = [] := by
  simp [follow_apply, follow_sort, follow_scan, follow_tail, follow_init]

/-- Claim C2: `is_leaving` holds exactly when the L-side operation is `union`
and (`entered` is set, or the method is `crosses`, or this is the first turn
and the first vertex of `L` is strictly inside `P`); in particular a
non-`union` operation is never classified leaving. -/
theorem is_leaving_iff (t : Turn Point) (op : TurnOperation) (entered first : Bool)
    (ls : List Point) (polygon : Point → Bool) :
    is_leaving t op entered first ls polygon = true ↔
      (op.operation = OperationType.operation_union ∧
        (entered = true ∨ t.method = MethodType.method_crosses ∨
          (first = true ∧ within ls.headI polygon = true))) := by
  simp only [is_leaving]
  split_ifs with h <;> simp [h, or_assoc]

/-- Claim C5: the sort performed by `follow::apply` yields a permutation of
the turn list in which every earlier turn is strictly below every later turn
in the `(seg_id, distance)` order, or tied with it on both components: the
sequence is nondecreasing in `(seg_id, distance)`. -/
theorem follow_sort_sorted (ts : List (Turn Point)) :
    (follow_sort ts).Perm ts ∧
    (follow_sort ts).Pairwise (fun a b => sort_on_segment a b = true ∨
      (a.operations0.seg_id = b.operations0.seg_id ∧
       a.operations0.distance = b.operations0.distance)) := by
  constructor
  · exact List.mergeSort_perm ts _
  · have h := List.sorted_mergeSort (@follow_le_trans Point _ _) (@follow_le_total Point _ _) ts
    refine List.Pairwise.imp ?_ h
    intro a b hab
    apply sort_on_segment_total_cases
    simpa using hab

/-- Claim C9: running `follow::apply` again on the turn list left behind by a
first run (that is, on the sorted turn list) produces exactly the same output
pieces as the first run. -/
theorem follow_apply_resorted (ls : List Point) (polygon : Point → Bool)
    (oper : OperationType) (ts : List (Turn Point)) :
    follow_apply ls polygon oper (follow_sort ts) = follow_apply ls polygon oper ts := by
  have hs : follow_sort (follow_sort ts) = follow_sort ts := by
    unfold follow_sort
    exact List.mergeSort_of_sorted
      (List.sorted_mergeSort (@follow_le_trans Point _ _) (@follow_le_total Point _ _) ts)
  unfold follow_apply
  rw [hs]


/-- Claim C3, counterexample: when the very first turn has method collinear
and an entering-like operation (intersection), the pre-mark fires but the
ENTERING branch is not executed: the turn point is not appended and
`current_segment_id` keeps its initial value. -/
theorem premark_entering_counterexample :
    (follow_step [5, 6] exPolyFalse follow_init exC3Turn).entered = true
    ∧ (follow_step [5, 6] exPolyFalse follow_init exC3Turn).current_piece ≠ [exC3Turn.point]
    ∧ (follow_step [5, 6] exPolyFalse follow_init exC3Turn).current_segment_id
        ≠ exC3Turn.operations0.seg_id := by
  decide

/-- Claim C3, amended: when the first turn has method collinear or equal and
an entering-like operation, the pre-mark sets `entered`, after which the turn
is classified STAYING_INSIDE (`entered` is already true and the method is not
`crosses`); the step only sets `entered` and clears `first`, appending no
point and leaving `current_segment_id` untouched. -/
theorem premark_entering_stays_inside (ls : List Point) (polygon : Point → Bool)
    (st : FollowState Point) (t : Turn Point)
    (hfirst : st.first = true)
    (hm : t.method = MethodType.method_collinear ∨ t.method = MethodType.method_equal)
    (hop : is_entering t t.operations0 = true) :
    follow_step ls polygon st t = { st with entered := true, first := false } := by
  have hwe : was_entered t st.first = true := by
    rcases hm with hm | hm <;> simp [was_entered, hfirst, hm]
  have hstay : is_staying_inside t t.operations0
      (if was_entered t st.first then true else st.entered) st.first ls polygon = true := by
    rcases hm with hm | hm <;> simp [is_staying_inside, hm, hop, hwe]
  simp only [follow_step, hstay]
  simp

/-- Witness for claim C3's amended theorem at the counterexample data. -/
theorem premark_entering_stays_inside_witness :
    follow_step [5, 6] exPolyFalse follow_init exC3Turn
      = { (follow_init : FollowState Nat) with entered := true, first := false } :=
  premark_entering_stays_inside [5, 6] exPolyFalse follow_init exC3Turn rfl
    (Or.inl rfl) (by decide)

/-- Claim C4, counterexample: a turn classified LEAVING while `entered` is
false and the current piece is empty (the start-inside case, scenario S2 of
the spec) does emit an output piece. -/
theorem leaving_never_entered_emits :
    is_leaving exC4Turn exC4Turn.operations0 false true [0, 1] exPolyZero = true
    ∧ follow_apply [0, 1] exPolyZero OperationType.operation_intersection [exC4Turn]
        = [[0, 9]] := by
  constructor
  · decide
  · have hs : follow_sort [exC4Turn] = [exC4Turn] := by
      simp [follow_sort]
    simp only [follow_apply, hs]
    decide

/-- Claim C4, amended: a `union` turn processed while `entered` is false
emits nothing when it is not classified LEAVING, that is, when it was not
pre-marked, its method is not `crosses`, and it is not the first turn with
the first vertex inside `P`; such a turn is ignored and the state (piece,
anchor, output) is unchanged apart from clearing `first`. -/
theorem union_never_entered_ignored (ls : List Point) (polygon : Point → Bool)
    (st : FollowState Point) (t : Turn Point)
    (hop : t.operations0.operation = OperationType.operation_union)
    (hent : st.entered = false)
    (hwe : was_entered t st.first = false)
    (hm : t.method ≠ MethodType.method_crosses)
    (hw : (st.first && within ls.headI polygon) = false) :
    follow_step ls polygon st t = { st with entered := false, first := false } := by
  simp [follow_step, is_staying_inside, is_entering, is_leaving, hop, hwe, hent, hm, hw]

/-- Witness for claim C4's amended theorem. -/
theorem union_never_entered_ignored_witness :
    follow_step [0] exPolyFalse exState exC4IgnTurn
      = { exState with entered := false, first := false } :=
  union_never_entered_ignored [0] exPolyFalse exState exC4IgnTurn rfl rfl
    (by decide) (by decide) (by decide)

/-- Claim C7: after the scan, if `entered` is still set the vertices from the
`current_segment_id` anchor through the last vertex of `L` are appended to the
current piece; the resulting piece is emitted exactly when it is non-empty,
and when `entered` is clear the pending piece is likewise emitted exactly when
it is non-empty. -/
theorem follow_tail_flush (ls : List Point) (st : FollowState Point) :
    (st.entered = true →
      follow_tail ls st =
        (if copy_segments ls st.current_segment_id ((ls.length : Int) - 1)
              st.current_piece = []
         then st.out
         else st.out ++ [copy_segments ls st.current_segment_id ((ls.length : Int) - 1)
              st.current_piece]))
    ∧ (st.entered = false →
      follow_tail ls st =
        (if st.current_piece = [] then st.out else st.out ++ [st.current_piece])) := by
  constructor <;> intro h <;> simp [follow_tail, h]

/-- Witness for claim C7's theorem, one state per `entered` value. -/
theorem follow_tail_flush_witness :
    follow_tail ([0, 1] : List Nat) exC7StateEntered = [[0, 1]]
    ∧ follow_tail ([0, 1] : List Nat) exC7StateOutside = [[5]] := by
  constructor
  · exact ((follow_tail_flush [0, 1] exC7StateEntered).1 rfl).trans (by decide)
  · exact ((follow_tail_flush [0, 1] exC7StateOutside).2 rfl).trans (by decide)

/-- Claim C8: processing a turn whose method is `crosses` never consults the
in-polygon predicate, and in general the predicate can only influence the
step while `first` is true: under either condition the step result is the
same for any two polygons. -/
theorem follow_step_polygon_independent (ls : List Point) (p1 p2 : Point → Bool)
    (st : FollowState Point) (t : Turn Point)
    (h : t.method = MethodType.method_crosses ∨ st.first = false) :
    follow_step ls p1 st t = follow_step ls p2 st t := by
  rcases h with h | h <;>
    simp [follow_step, is_staying_inside, is_leaving, h]

/-- Witness for claim C8's theorem: a crossing turn behaves identically for
the all-true and the all-false containment predicates. -/
theorem follow_step_polygon_independent_witness :
    follow_step [0] exPolyTrue exState exC8Turn = follow_step [0] exPolyFalse exState exC8Turn :=
  follow_step_polygon_independent [0] exPolyTrue exPolyFalse exState exC8Turn (Or.inl rfl)


/-! ### Non-emptiness of emitted pieces -/

/-- `append_no_duplicates` never returns the empty piece. -/
theorem append_no_duplicates_ne_nil (piece : List Point) (pt : Point) :
    append_no_duplicates piece pt ≠ [] := by
  unfold append_no_duplicates
  rcases h : piece.getLast? with _ | lastv
  · simp
  · show (if lastv = pt then piece else piece ++ [pt]) ≠ []
    have hp : piece ≠ [] := by rintro rfl; simp at h
    split_ifs <;> simp_all

/-- After `append_no_duplicates`, the appended point is the last vertex
(also when it was suppressed as a duplicate). -/
theorem append_no_duplicates_getLast (piece : List Point) (pt : Point) :
    (append_no_duplicates piece pt).getLast? = some pt := by
  unfold append_no_duplicates
  rcases h : piece.getLast? with _ | lastv
  · rfl
  · show (if lastv = pt then piece else piece ++ [pt]).getLast? = some pt
    split_ifs with he
    · rw [h, he]
    · simp [List.getLast?_concat]

/-- A scan step only ever adds non-empty pieces to the output. -/
theorem follow_step_out_mem (ls : List Point) (polygon : Point → Bool)
    (st : FollowState Point) (t : Turn Point) :
    ∀ q ∈ (follow_step ls polygon st t).out, q ∈ st.out ∨ q ≠ [] := by
  intro q hq
  simp only [follow_step] at hq
  split_ifs at hq <;>
    first
      | exact Or.inl hq
      | exact (List.mem_append.mp hq).elim Or.inl
          (fun h => by
            rcases List.mem_singleton.mp h with rfl
            exact Or.inr (append_no_duplicates_ne_nil _ _))

/-- The scan loop preserves non-emptiness of all output pieces. -/
theorem follow_scan_go_out (ls : List Point) (polygon : Point → Bool) :
    ∀ (ts : List (Turn Point)) (st : FollowState Point),
      (∀ q ∈ st.out, q ≠ []) →
      ∀ q ∈ (ts.foldl (follow_step ls polygon) st).out, q ≠ []
  | [], _, h => h
  | t :: ts, st, h => by
    intro q hq
    refine follow_scan_go_out ls polygon ts (follow_step ls polygon st t) ?_ q hq
    intro q2 hq2
    rcases follow_step_out_mem ls polygon st t q2 hq2 with h2 | h2
    · exact h q2 h2
    · exact h2

/-- The epilogue preserves non-emptiness of all output pieces. -/
theorem follow_tail_out (ls : List Point) (st : FollowState Point)
    (h : ∀ q ∈ st.out, q ≠ []) : ∀ q ∈ follow_tail ls st, q ≠ [] := by
  intro q hq
  simp only [follow_tail] at hq
  split_ifs at hq <;>
    first
      | exact h q hq
      | exact (List.mem_append.mp hq).elim (h q)
          (fun h2 => by rcases List.mem_singleton.mp h2 with rfl; assumption)

/-- Claim C10: every piece emitted by `follow::apply` is non-empty (both
emission sites are guarded by a non-emptiness check), and a turn on which the
LEAVING branch fires always emits exactly one piece, whose last vertex is
that turn's intersection point. -/
theorem output_pieces_nonempty (ls : List Point) (polygon : Point → Bool)
    (oper : OperationType) (ts : List (Turn Point)) :
    (∀ q ∈ follow_apply ls polygon oper ts, q ≠ []) ∧
    (∀ (st : FollowState Point) (t : Turn Point),
      is_staying_inside t t.operations0
        (if was_entered t st.first then true else st.entered) st.first ls polygon = false →
      is_entering t t.operations0 = false →
      is_leaving t t.operations0
        (if was_entered t st.first then true else st.entered) st.first ls polygon = true →
      ∃ piece, (follow_step ls polygon st t).out = st.out ++ [piece] ∧
        piece ≠ [] ∧ piece.getLast? = some t.point) := by
  constructor
  · intro q hq
    refine follow_tail_out ls (follow_scan ls polygon (follow_sort ts)) ?_ q hq
    refine follow_scan_go_out ls polygon (follow_sort ts) follow_init ?_
    intro q2 hq2
    exact absurd hq2 (List.not_mem_nil q2)
  · intro st t h1 h2 h3
    refine ⟨append_no_duplicates
        (copy_segments ls st.current_segment_id t.operations0.seg_id.segment_index
          st.current_piece) t.point,
      ?_, append_no_duplicates_ne_nil _ _, append_no_duplicates_getLast _ _⟩
    simp at h1 h3
    simp [follow_step, h1, h2, h3, append_no_duplicates_ne_nil]

/-- Witness for claim C10's theorem: a concrete output piece is non-empty,
and a concrete LEAVING turn emits a piece ending in its point. -/
theorem output_pieces_nonempty_witness :
    ([0, 8] : List Nat) ≠ [] ∧
    (∃ piece, (follow_step [0, 1] exPolyZero exState exC10Turn).out = exState.out ++ [piece] ∧
      piece ≠ [] ∧ piece.getLast? = some exC10Turn.point) := by
  constructor
  · refine (output_pieces_nonempty [0, 1] exPolyZero
      OperationType.operation_intersection [exC10Turn]).1 [0, 8] ?_
    have hs : follow_sort [exC10Turn] = [exC10Turn] := by
      simp [follow_sort]
    simp only [follow_apply, hs]
    decide
  · exact (output_pieces_nonempty [0, 1] exPolyZero
      OperationType.operation_intersection [exC10Turn]).2 exState exC10Turn
      (by decide) (by decide) (by decide)

end Follow
